import Mathlib

/-!
Shallow embedding of the covid_graph pipeline (src/main.rs).

The program downloads per-country covid CSV data, groups the rows by
country name into per-region evolution series, and draws four chart
panels: total deaths, daily deaths (consecutive differences), deaths per
100K people, and a 3-day averaged daily deaths per 100K.

Modelling conventions:
* Timestamps (`chrono::DateTime<Utc>`) are modelled as `Int` values; the
  claims only use their linear order, never calendar structure.
* `u32` counters are modelled as `Nat`.  The `u32` subtractions in
  `draw_evolution_graph` are modelled by `checkedSub`, which returns
  `none` exactly when the Rust subtraction would underflow (a panic in a
  debug build); a metric series is therefore an `Option (List _)`, with
  `none` standing for the panicking run.  The `u32` additions in the
  3-day average are modelled as `Nat` addition (unbounded); their
  overflow is not at issue in any claim.
* Rust's `HashMap<String, RegionData>` is modelled as an association
  list (`List RegionData`) with unique names, updated in place by
  `insertPoint`; the claims only inspect the per-name series, which is
  insensitive to the map's iteration order.
* Chart rendering (plotters calls, pixel layout, the affine hour-axis
  transform `signed_duration_since(t0).num_hours()`) is glue outside the
  claims; the metric series keep the raw temporal position as the x
  value.
-/

namespace CovidGraph

/-- One CSV row of `nssac-ncov-data-country-state`, after field parsing
(struct `DataPoint`, main.rs lines 32-40). -/
structure DataPoint where
  name : String
  region : String
  last_update : Int
  confirmed : Nat
  deaths : Nat
  recovered : Nat
  deriving DecidableEq, Repr, Inhabited

/-- One point of a region's time series (struct `EvolutionPoint`,
main.rs lines 99-105). -/
structure EvolutionPoint where
  update_time : Int
  confirmed : Nat
  deaths : Nat
  recovered : Nat
  deriving DecidableEq, Repr, Inhabited

/-- A region's series (struct `RegionData`, main.rs lines 107-112). -/
structure RegionData where
  name : String
  region : String
  evolution : List EvolutionPoint
  deriving DecidableEq, Repr, Inhabited

/-! ### Raw record parsing (`get_covid_data`, main.rs lines 42-96)

A CSV record is a `List String` of fields.  The external field parsers
(`Utc.datetime_from_str` for field 2, `str::parse::<u32>` for fields
3-5) are abstracted as parameters `pd : String → Option Int` and
`pn : String → Option Nat`.  The source checks the field count first
(`record.len() != 6` skips the row with `continue`); any field parse
failure propagates with `?` out of the per-file closure `parse_file`,
ending that file's loop. -/

/-- Parse one CSV record, following main.rs lines 72-83.
`Except.ok none` is the wrong-field-count skip (`continue`),
`Except.error ()` is a field parse failure propagated by `?`,
`Except.ok (some d)` is a successfully parsed row. -/
def parseRow (pd : String → Option Int) (pn : String → Option Nat)
    (record : List String) : Except Unit (Option DataPoint) :=
  if record.length = 6 then
    match pd (record.getD 2 ""), pn (record.getD 3 ""),
        pn (record.getD 4 ""), pn (record.getD 5 "") with
    | some t, some c, some d, some r =>
      Except.ok (some { name := record.getD 0 "", region := record.getD 1 "",
                        last_update := t, confirmed := c, deaths := d,
                        recovered := r })
    | _, _, _, _ => Except.error ()
  else
    Except.ok none

/-- The per-file loop (the `parse_file` closure, main.rs lines 69-88):
rows parsed before a field parse failure have already been pushed into
`result` and are kept; the failure ends the loop for this file, so the
remaining rows of the file are dropped. -/
def parse_file (pd : String → Option Int) (pn : String → Option Nat) :
    List (List String) → List DataPoint
  | [] => []
  | record :: rest =>
    match parseRow pd pn record with
    | Except.ok (some d) => d :: parse_file pd pn rest
    | Except.ok none => parse_file pd pn rest
    | Except.error _ => []

/-- `get_covid_data` (main.rs lines 42-96) over the archive's files: a
file's parse error is caught and printed (lines 90-92) and the outer
loop continues with the next file, accumulating into one `result`
vector. -/
def get_covid_data (pd : String → Option Int) (pn : String → Option Nat) :
    List (List (List String)) → List DataPoint
  | [] => []
  | file :: files => parse_file pd pn file ++ get_covid_data pd pn files

/-! ### Region aggregation (`get_per_country_data`, main.rs lines 114-142) -/

/-- Build the `EvolutionPoint` pushed for one `DataPoint`
(main.rs lines 120-125). -/
def toEvolutionPoint (d : DataPoint) : EvolutionPoint :=
  { update_time := d.last_update, confirmed := d.confirmed,
    deaths := d.deaths, recovered := d.recovered }

/-- One step of the grouping fold (main.rs lines 127-138): if a region
with this name exists, push the point onto its `evolution`; otherwise
insert a fresh `RegionData` seeded with this single point. -/
def insertPoint : List RegionData → DataPoint → List RegionData
  | [], d => [{ name := d.name, region := d.region,
                evolution := [toEvolutionPoint d] }]
  | r :: rs, d =>
    if r.name = d.name then
      { r with evolution := r.evolution ++ [toEvolutionPoint d] } :: rs
    else
      r :: insertPoint rs d

/-- `get_per_country_data` (main.rs lines 114-142), taking the parsed
`DataPoint` list as input: fold every data point into the map and
return the regions. -/
def get_per_country_data (ds : List DataPoint) : List RegionData :=
  ds.foldl insertPoint []

/-- The evolution series stored for the region named `n`
(empty when no such region exists). -/
def seriesOf (regions : List RegionData) (n : String) : List EvolutionPoint :=
  match regions.find? (fun r => r.name == n) with
  | some r => r.evolution
  | none => []

/-- Total number of points over all region series. -/
def totalPoints (regions : List RegionData) : Nat :=
  (regions.map (fun r => r.evolution.length)).sum

/-- Ascending order by temporal position. -/
def sortedByTime (l : List EvolutionPoint) : Prop :=
  List.Chain' (fun a b => a.update_time ≤ b.update_time) l

/-! ### Population registry (`population_map`, main.rs lines 144-176) -/

/-- The static population table (main.rs lines 158-175; commented-out
entries omitted, as in the source). -/
def population_map : List (String × Nat) :=
  [("Norway", 5295619), ("Sweden", 10090825), ("Spain", 46752408),
   ("Germany", 83749987), ("Belgium", 11583221), ("Finland", 5539631),
   ("United Kingdom", 67886011), ("Ireland", 4937786),
   ("Japan", 126476461), ("Taiwan", 23816775)]

/-- `population_map.get(name)` (main.rs lines 291, 323). -/
def popLookup (n : String) : Option Nat :=
  (population_map.find? (fun p => p.1 == n)).map Prod.snd

/-- `population_map.keys()` collected (main.rs line 219). -/
def countries : List String :=
  population_map.map Prod.fst

/-- The filter applied to `regions` in every panel (main.rs lines
224-227 etc.): keep the regions whose name is a key of the population
map. -/
def filteredRegions (regions : List RegionData) : List RegionData :=
  regions.filter (fun x => countries.contains x.name)

/-! ### Metric series (`draw_evolution_graph`, main.rs lines 182-355) -/

/-- `u32` subtraction `a - b`: `none` models the underflow panic of a
debug build. -/
def checkedSub (a b : Nat) : Option Nat :=
  if b ≤ a then some (a - b) else none

/-- The "Total daily Deaths" panel's series (main.rs lines 260-267):
for each point from the second onward, emit
`(update_time, deaths - previous deaths)`, the subtraction in `u32`. -/
def dailyDeathsSeries : List EvolutionPoint → Option (List (Int × Nat))
  | [] => some []
  | [_] => some []
  | a :: b :: rest => do
    let d ← checkedSub b.deaths a.deaths
    let tail ← dailyDeathsSeries (b :: rest)
    some ((b.update_time, d) :: tail)

/-- The y value of one 3-day-average point (main.rs line 338): the
window sum of the three daily counts, divided by 3 in `u32` (truncating
integer division), then cast to float and divided by
`population / 100000`.  Real values are modelled in `ℚ`. -/
def avg3Val (pop100k : ℚ) (count p1 p2 : Nat) : ℚ :=
  (((count + p1 + p2) / 3 : Nat) : ℚ) / pop100k

/-- The "Averaged (3 day) Daily Deaths per 100K" panel's series
(main.rs lines 326-340): for each point from the fourth onward, the
three consecutive daily death counts ending at it are computed by `u32`
subtraction and averaged by `avg3Val`. -/
def avg3Series (pop100k : ℚ) : List EvolutionPoint → Option (List (Int × ℚ))
  | a :: b :: c :: d :: rest => do
    let count ← checkedSub d.deaths c.deaths
    let p1 ← checkedSub c.deaths b.deaths
    let p2 ← checkedSub b.deaths a.deaths
    let tail ← avg3Series pop100k (b :: c :: d :: rest)
    some ((d.update_time, avg3Val pop100k count p1 p2) :: tail)
  | _ => some []

/-- The consecutive-difference series with `Nat` (truncating)
subtraction; on a series whose deaths never decrease this coincides
with `dailyDeathsSeries` and is total.  Used to state exact values. -/
def deltas : List EvolutionPoint → List (Int × Nat)
  | a :: b :: rest => (b.update_time, b.deaths - a.deaths) :: deltas (b :: rest)
  | _ => []

/-- Non-decreasing deaths along a series, in sequence order. -/
def deathsMono (ev : List EvolutionPoint) : Prop :=
  List.Chain' (fun x y => x.deaths ≤ y.deaths) ev

/-- Structurally recursive decision procedure for `sortedByTime`, so
that concrete instances reduce in the kernel. -/
def sortedByTimeDec : (l : List EvolutionPoint) → Decidable (sortedByTime l)
  | [] => isTrue List.chain'_nil
  | [a] => isTrue (List.chain'_singleton a)
  | a :: b :: rest =>
    match Int.decLe a.update_time b.update_time, sortedByTimeDec (b :: rest) with
    | isTrue h1, isTrue h2 => isTrue (List.chain'_cons.mpr ⟨h1, h2⟩)
    | isFalse h1, _ => isFalse fun hc => h1 (List.chain'_cons.mp hc).1
    | _, isFalse h2 => isFalse fun hc => h2 (List.chain'_cons.mp hc).2

instance (l : List EvolutionPoint) : Decidable (sortedByTime l) :=
  sortedByTimeDec l

/-- Structurally recursive decision procedure for `deathsMono`, so
that concrete instances reduce in the kernel. -/
def deathsMonoDec : (l : List EvolutionPoint) → Decidable (deathsMono l)
  | [] => isTrue List.chain'_nil
  | [a] => isTrue (List.chain'_singleton a)
  | a :: b :: rest =>
    match Nat.decLe a.deaths b.deaths, deathsMonoDec (b :: rest) with
    | isTrue h1, isTrue h2 => isTrue (List.chain'_cons.mpr ⟨h1, h2⟩)
    | isFalse h1, _ => isFalse fun hc => h1 (List.chain'_cons.mp hc).1
    | _, isFalse h2 => isFalse fun hc => h2 (List.chain'_cons.mp hc).2

instance (ev : List EvolutionPoint) : Decidable (deathsMono ev) :=
  deathsMonoDec ev

/-! ### Helper lemmas about the aggregator -/

theorem seriesOf_nil (n : String) : seriesOf [] n = [] := rfl

theorem seriesOf_cons (r : RegionData) (rs : List RegionData) (n : String) :
    seriesOf (r :: rs) n = if r.name = n then r.evolution else seriesOf rs n := by
  by_cases h : r.name = n
  · have hb : (r.name == n) = true := by simp [h]
    simp [seriesOf, List.find?_cons, hb, h]
  · have hb : (r.name == n) = false := by simp [h]
    simp [seriesOf, List.find?_cons, hb, h]

theorem seriesOf_insertPoint (acc : List RegionData) (d : DataPoint) (n : String) :
    seriesOf (insertPoint acc d) n =
      if d.name = n then seriesOf acc n ++ [toEvolutionPoint d] else seriesOf acc n := by
  induction acc with
  | nil =>
    show seriesOf [_] n = _
    rw [seriesOf_cons]
    by_cases h : d.name = n <;> simp [h, seriesOf_nil]
  | cons r rs ih =>
    simp only [insertPoint]
    by_cases hr : r.name = d.name
    · rw [if_pos hr]
      simp only [seriesOf_cons]
      by_cases hn : r.name = n
      · have hdn : d.name = n := by rw [← hr]; exact hn
        simp [hn, hdn]
      · have hdn : d.name ≠ n := fun h => hn (hr.trans h)
        simp [hn, hdn]
    · rw [if_neg hr]
      simp only [seriesOf_cons, ih]
      by_cases hn : r.name = n
      · have hdn : d.name ≠ n := fun h => hr (hn.trans h.symm)
        simp [hn, hdn]
      · simp [hn]

theorem seriesOf_foldl (ds : List DataPoint) (acc : List RegionData) (n : String) :
    seriesOf (ds.foldl insertPoint acc) n =
      seriesOf acc n ++ (ds.filter (fun d => d.name == n)).map toEvolutionPoint := by
  induction ds generalizing acc with
  | nil => simp
  | cons d ds ih =>
    by_cases h : d.name = n
    · simp [List.foldl_cons, ih, seriesOf_insertPoint, h]
    · simp [List.foldl_cons, ih, seriesOf_insertPoint, h]

theorem seriesOf_get_per_country_data (ds : List DataPoint) (n : String) :
    seriesOf (get_per_country_data ds) n =
      (ds.filter (fun d => d.name == n)).map toEvolutionPoint := by
  simp [get_per_country_data, seriesOf_foldl, seriesOf_nil]

theorem totalPoints_cons (r : RegionData) (rs : List RegionData) :
    totalPoints (r :: rs) = r.evolution.length + totalPoints rs := by
  simp [totalPoints]

theorem totalPoints_insertPoint (acc : List RegionData) (d : DataPoint) :
    totalPoints (insertPoint acc d) = totalPoints acc + 1 := by
  induction acc with
  | nil => simp [totalPoints, insertPoint]
  | cons r rs ih =>
    simp only [insertPoint]
    by_cases hr : r.name = d.name
    · rw [if_pos hr]
      simp only [totalPoints_cons]
      simp only [List.length_append, List.length_cons, List.length_nil]
      omega
    · rw [if_neg hr]
      simp only [totalPoints_cons, ih]
      omega

theorem totalPoints_foldl (ds : List DataPoint) (acc : List RegionData) :
    totalPoints (ds.foldl insertPoint acc) = totalPoints acc + ds.length := by
  induction ds generalizing acc with
  | nil => simp
  | cons d ds ih =>
    simp [List.foldl_cons, ih, totalPoints_insertPoint]
    omega

theorem evolution_ne_nil_of_mem_insertPoint (acc : List RegionData) (d : DataPoint)
    (hacc : ∀ r ∈ acc, r.evolution ≠ []) :
    ∀ r ∈ insertPoint acc d, r.evolution ≠ [] := by
  induction acc with
  | nil =>
    intro r hr
    simp [insertPoint] at hr
    simp [hr]
  | cons a rs ih =>
    intro r hr
    by_cases ha : a.name = d.name
    · simp only [insertPoint, ha, if_pos] at hr
      rcases List.mem_cons.mp hr with h | h
      · simp [h]
      · exact hacc r (List.mem_cons_of_mem a h)
    · simp only [insertPoint, ha, if_neg, not_false_iff] at hr
      rcases List.mem_cons.mp hr with h | h
      · subst h
        exact hacc r (List.mem_cons_self r rs)
      · exact ih (fun x hx => hacc x (List.mem_cons_of_mem a hx)) r h

theorem evolution_ne_nil_of_mem_foldl (ds : List DataPoint) (acc : List RegionData)
    (hacc : ∀ r ∈ acc, r.evolution ≠ []) :
    ∀ r ∈ ds.foldl insertPoint acc, r.evolution ≠ [] := by
  induction ds generalizing acc with
  | nil => simpa using hacc
  | cons d ds ih =>
    intro r hr
    exact ih (insertPoint acc d)
      (evolution_ne_nil_of_mem_insertPoint acc d hacc) r (by simpa using hr)

/-! ### Helper lemmas about the metric series -/

theorem dailyDeathsSeries_eq_deltas (ev : List EvolutionPoint) (h : deathsMono ev) :
    dailyDeathsSeries ev = some (deltas ev) := by
  induction ev with
  | nil => rfl
  | cons a tail ih =>
    cases tail with
    | nil => rfl
    | cons b rest =>
      have hab : a.deaths ≤ b.deaths := (List.chain'_cons.mp h).1
      have htail : deathsMono (b :: rest) := (List.chain'_cons.mp h).2
      simp [dailyDeathsSeries, deltas, checkedSub, if_pos hab, ih htail]

theorem deltas_length (ev : List EvolutionPoint) :
    (deltas ev).length = ev.length - 1 := by
  induction ev with
  | nil => rfl
  | cons a tail ih =>
    cases tail with
    | nil => rfl
    | cons b rest =>
      simp only [deltas, List.length_cons] at ih ⊢
      omega

theorem deltas_getD (ev : List EvolutionPoint) (i : Nat) (hi : i + 1 < ev.length) :
    (deltas ev).getD i (0, 0) =
      ((ev.getD (i + 1) default).update_time,
        (ev.getD (i + 1) default).deaths - (ev.getD i default).deaths) := by
  induction ev generalizing i with
  | nil => simp at hi
  | cons a tail ih =>
    cases tail with
    | nil => simp at hi
    | cons b rest =>
      cases i with
      | zero => simp [deltas, List.getD]
      | succ j =>
        have hj : j + 1 < (b :: rest).length := by
          simp only [List.length_cons] at hi ⊢
          omega
        simpa [deltas, List.getD] using ih j hj

theorem deathsMono_le_getLastD (x : EvolutionPoint) (xs : List EvolutionPoint)
    (h : deathsMono (x :: xs)) :
    x.deaths ≤ ((x :: xs).getLastD default).deaths := by
  induction xs generalizing x with
  | nil => simp [List.getLastD]
  | cons y ys ih =>
    have hxy : x.deaths ≤ y.deaths := (List.chain'_cons.mp h).1
    have htail : deathsMono (y :: ys) := (List.chain'_cons.mp h).2
    have hy := ih y htail
    rw [List.getLastD_cons] at hy ⊢
    calc x.deaths ≤ y.deaths := hxy
      _ ≤ _ := by
        cases ys with
        | nil => simp [List.getLastD]
        | cons z zs => simpa [List.getLastD_cons] using hy

theorem deltas_sum (ev : List EvolutionPoint) (h : deathsMono ev) :
    ((deltas ev).map Prod.snd).sum =
      (ev.getLastD default).deaths - (ev.headD default).deaths := by
  induction ev with
  | nil => rfl
  | cons a tail ih =>
    cases tail with
    | nil => simp [deltas, List.getLastD]
    | cons b rest =>
      have hab : a.deaths ≤ b.deaths := (List.chain'_cons.mp h).1
      have htail : deathsMono (b :: rest) := (List.chain'_cons.mp h).2
      have hbL : b.deaths ≤ ((b :: rest).getLastD default).deaths :=
        deathsMono_le_getLastD b rest htail
      have hsum := ih htail
      simp only [List.headD_cons] at hsum
      simp only [deltas, List.map_cons, List.sum_cons, List.headD_cons, hsum,
        List.getLastD_cons]
      rw [List.getLastD_cons] at hbL
      omega

theorem dailyDeathsSeries_length (ev : List EvolutionPoint)
    (ds : List (Int × Nat)) (h : dailyDeathsSeries ev = some ds) :
    ds.length = ev.length - 1 := by
  induction ev generalizing ds with
  | nil =>
    simp only [dailyDeathsSeries, Option.some_inj] at h
    simp [← h]
  | cons a tail ih =>
    cases tail with
    | nil =>
      simp only [dailyDeathsSeries, Option.some_inj] at h
      simp [← h]
    | cons b rest =>
      simp [dailyDeathsSeries, Option.bind_eq_some] at h
      obtain ⟨d, hd, tl, htl, hds⟩ := h
      have hlen := ih tl htl
      simp only [List.length_cons] at hlen ⊢
      simp [← hds]
      omega

theorem avg3Series_length (pop : ℚ) (ev : List EvolutionPoint)
    (out : List (Int × ℚ)) (h : avg3Series pop ev = some out) :
    out.length = ev.length - 3 := by
  induction ev generalizing out with
  | nil =>
    simp only [avg3Series, Option.some_inj] at h
    simp [← h]
  | cons a tail ih =>
    cases tail with
    | nil =>
      simp only [avg3Series, Option.some_inj] at h
      simp [← h]
    | cons b tail2 =>
      cases tail2 with
      | nil =>
        simp only [avg3Series, Option.some_inj] at h
        simp [← h]
      | cons c tail3 =>
        cases tail3 with
        | nil =>
          simp only [avg3Series, Option.some_inj] at h
          simp [← h]
        | cons d rest =>
          simp [avg3Series, Option.bind_eq_some] at h
          obtain ⟨count, hc, p1, h1, p2, h2, tl, htl, hout⟩ := h
          have hlen := ih tl htl
          simp only [List.length_cons] at hlen ⊢
          simp [← hout]
          omega

theorem avg3Series_isSome_of_mono (pop : ℚ) (ev : List EvolutionPoint)
    (h : deathsMono ev) : (avg3Series pop ev).isSome := by
  induction ev with
  | nil => rfl
  | cons a tail ih =>
    cases tail with
    | nil => rfl
    | cons b tail2 =>
      cases tail2 with
      | nil => rfl
      | cons c tail3 =>
        cases tail3 with
        | nil => rfl
        | cons d rest =>
          have hab : a.deaths ≤ b.deaths := (List.chain'_cons.mp h).1
          have h2 := (List.chain'_cons.mp h).2
          have hbc : b.deaths ≤ c.deaths := (List.chain'_cons.mp h2).1
          have h3 := (List.chain'_cons.mp h2).2
          have hcd : c.deaths ≤ d.deaths := (List.chain'_cons.mp h3).1
          have htail : deathsMono (b :: c :: d :: rest) := h2
          obtain ⟨tl, htl⟩ := Option.isSome_iff_exists.mp (ih htail)
          simp [avg3Series, checkedSub, if_pos hab, if_pos hbc, if_pos hcd, htl]

/-! ### Helper lemmas about the population registry -/

theorem popLookup_pos (n : String) (p : Nat) (h : popLookup n = some p) : 0 < p := by
  have hall : ∀ x ∈ population_map, 0 < x.2 := by decide
  unfold popLookup at h
  cases hf : population_map.find? (fun q => q.1 == n) with
  | none => simp [hf] at h
  | some pair =>
    simp [hf] at h
    have hmem := List.mem_of_find?_eq_some hf
    have hpos := hall pair hmem
    omega

theorem popLookup_isSome_of_mem (n : String) (h : n ∈ countries) :
    ∃ p, popLookup n = some p := by
  unfold countries at h
  obtain ⟨pair, hmem, hname⟩ := List.mem_map.mp h
  have hsome : (population_map.find? (fun q => q.1 == n)).isSome := by
    rw [List.find?_isSome]
    exact ⟨pair, hmem, by simp [hname]⟩
  obtain ⟨pair', hp⟩ := Option.isSome_iff_exists.mp hsome
  exact ⟨pair'.2, by simp [popLookup, hp]⟩

/-! ### Claim theorems -/

/-- Claim C1, counterexample: two records for region "A" arriving in
descending time order produce a series that is NOT sorted ascending by
`update_time` — the aggregator never sorts, refuting the claim that
every series is sorted for every input record ordering. -/
theorem c1_not_sorted_cx :
    ¬ sortedByTime (seriesOf (get_per_country_data
      [{ name := "A", region := "r", last_update := 2, confirmed := 0,
         deaths := 5, recovered := 0 },
       { name := "A", region := "r", last_update := 1, confirmed := 0,
         deaths := 3, recovered := 0 }]) "A") := by
  decide

/-- Claim C1 (amended): the aggregator applies no sort; a region's
series is sorted ascending by `update_time` iff that region's records
already appear in ascending `last_update` order in the parser output. -/
theorem c1_series_sorted_iff_input_sorted (ds : List DataPoint) (n : String) :
    sortedByTime (seriesOf (get_per_country_data ds) n) ↔
      List.Chain' (fun a b => a.last_update ≤ b.last_update)
        (ds.filter (fun d => d.name == n)) := by
  unfold sortedByTime
  rw [seriesOf_get_per_country_data, List.chain'_map]
  exact Iff.rfl

/-- Claim C2, counterexample: a window of daily deaths summing to 10
(deltas 4, 3, 3) yields the value 3, not the exact 10/3 — the average
is truncated by `u32` integer division before the float cast. -/
theorem c2_avg3_truncates_cx :
    avg3Series 1
      [{ update_time := 0, confirmed := 0, deaths := 0, recovered := 0 },
       { update_time := 1, confirmed := 0, deaths := 3, recovered := 0 },
       { update_time := 2, confirmed := 0, deaths := 6, recovered := 0 },
       { update_time := 3, confirmed := 0, deaths := 10, recovered := 0 }] =
      some [(3, 3)] ∧ (3 : ℚ) ≠ 10 / 3 :=
  ⟨by norm_num [avg3Series, checkedSub, avg3Val], by norm_num⟩

/-- Claim C2 (amended): the 3-day rolling average divides the window
sum by 3 with truncating integer division (the floor of the exact
quotient), and only then casts to float and divides by
population/100k; a window summing to 10 therefore yields 3, not
10/3. -/
theorem c2_avg3_truncating_div (pop : ℚ) (count p1 p2 : Nat) :
    avg3Val pop count p1 p2 =
      ((⌊((count + p1 + p2 : Nat) : ℚ) / 3⌋₊ : ℚ)) / pop := by
  have h : (⌊((count + p1 + p2 : Nat) : ℚ) / 3⌋₊ : ℕ) = (count + p1 + p2) / 3 := by
    rw [show ((3 : ℚ)) = ((3 : ℕ) : ℚ) by norm_num, Nat.floor_div_nat,
      Nat.floor_natCast]
  rw [avg3Val, h]

/-- A toy date-field parser for concrete parse runs: accepts only
"T". -/
def pdTest : String → Option Int :=
  fun s => if s = "T" then some 0 else none

/-- A toy numeric-field parser for concrete parse runs: accepts only
"1". -/
def pnTest : String → Option Nat :=
  fun s => if s = "1" then some 1 else none

/-- Claim C3, counterexample: a row whose date field "X" is
unparseable aborts the rest of its file — the later, perfectly
parseable row is dropped, refuting the claim that only the offending
row is skipped and all subsequent rows of the same file are still
processed. -/
theorem c3_parse_abort_cx :
    parse_file pdTest pnTest
      [["A", "R", "X", "1", "1", "1"], ["A", "R", "T", "1", "1", "1"]] = [] ∧
    parse_file pdTest pnTest [["A", "R", "T", "1", "1", "1"]] =
      [{ name := "A", region := "R", last_update := 0, confirmed := 1,
         deaths := 1, recovered := 1 }] :=
  ⟨by decide, by decide⟩

/-- Claim C3 (amended): a wrong field count skips only that row
(subsequent rows of the file are still processed); an unparseable
numeric or date field aborts the remainder of that file, keeping the
rows already parsed; the run itself never aborts — the next file is
still processed and its rows are appended to the same result. -/
theorem c3_row_error_handling (pd : String → Option Int)
    (pn : String → Option Nat) (record : List String)
    (rest : List (List String)) (file : List (List String))
    (files : List (List (List String))) :
    (record.length ≠ 6 →
      parse_file pd pn (record :: rest) = parse_file pd pn rest) ∧
    (parseRow pd pn record = Except.error () →
      parse_file pd pn (record :: rest) = []) ∧
    (∀ d, parseRow pd pn record = Except.ok (some d) →
      parse_file pd pn (record :: rest) = d :: parse_file pd pn rest) ∧
    get_covid_data pd pn (file :: files) =
      parse_file pd pn file ++ get_covid_data pd pn files := by
  refine ⟨?_, ?_, ?_, rfl⟩
  · intro h
    have hrow : parseRow pd pn record = Except.ok none := by
      simp [parseRow, h]
    simp [parse_file, hrow]
  · intro h
    simp [parse_file, h]
  · intro d h
    simp [parse_file, h]

/-- Claim C3, witness for the amended theorem: concrete runs of the
three recovery behaviours. -/
theorem c3_row_error_handling_witness :
    parse_file pdTest pnTest
      [["A", "R", "X", "1", "1", "1"], ["A", "R", "T", "1", "1", "1"]] = [] ∧
    parse_file pdTest pnTest
      [["A", "R"], ["A", "R", "T", "1", "1", "1"]] =
      parse_file pdTest pnTest [["A", "R", "T", "1", "1", "1"]] ∧
    get_covid_data pdTest pnTest [[["A", "R", "T", "1", "1", "1"]]] =
      parse_file pdTest pnTest [["A", "R", "T", "1", "1", "1"]] ++
        get_covid_data pdTest pnTest [] :=
  ⟨(c3_row_error_handling pdTest pnTest ["A", "R", "X", "1", "1", "1"]
      [["A", "R", "T", "1", "1", "1"]] [] []).2.1 rfl,
   (c3_row_error_handling pdTest pnTest ["A", "R"]
      [["A", "R", "T", "1", "1", "1"]] [] []).1 (by decide),
   (c3_row_error_handling pdTest pnTest [] []
      [["A", "R", "T", "1", "1", "1"]] []).2.2.2⟩

/-- Claim C4: every region that passes the panels' filter (its name is
a key of the population map) has a successful, positive population
lookup — the `unwrap` cannot fail there — and a region whose lookup
would fail is excluded by the filter, so no per-capita division is
executed for it. -/
theorem c4_percapita_lookup_safe (regions : List RegionData) :
    (∀ r ∈ filteredRegions regions, ∃ p, popLookup r.name = some p ∧ 0 < p) ∧
    (∀ r ∈ regions, popLookup r.name = none → r ∉ filteredRegions regions) := by
  constructor
  · intro r hr
    have hc : countries.contains r.name = true := (List.mem_filter.mp hr).2
    have hmem : r.name ∈ countries := by simpa using hc
    obtain ⟨p, hp⟩ := popLookup_isSome_of_mem r.name hmem
    exact ⟨p, hp, popLookup_pos r.name p hp⟩
  · intro r _ hnone hmemf
    have hc : countries.contains r.name = true := (List.mem_filter.mp hmemf).2
    have hmem : r.name ∈ countries := by simpa using hc
    obtain ⟨p, hp⟩ := popLookup_isSome_of_mem r.name hmem
    rw [hnone] at hp
    exact Option.noConfusion hp

/-- Claim C4, witness: the region "Norway" passes the filter and its
lookup succeeds with a positive population. -/
theorem c4_percapita_lookup_safe_witness :
    ∃ p, popLookup "Norway" = some p ∧ 0 < p :=
  (c4_percapita_lookup_safe
      [{ name := "Norway", region := "x", evolution := [] }]).1
    { name := "Norway", region := "x", evolution := [] } (by decide)

/-- Claim C5: on a series whose cumulative death counts never decrease
(so the `u32` subtractions are exact), the daily-delta series exists,
has exactly `n - 1` points, the point at index `i` carries
`cumulative[i+1] - cumulative[i]`, and the deltas telescope to
`cumulative[last] - cumulative[first]`. -/
theorem c5_daily_delta_spec (ev : List EvolutionPoint) (h : deathsMono ev) :
    ∃ ds, dailyDeathsSeries ev = some ds ∧
      ds.length = ev.length - 1 ∧
      (∀ i, i + 1 < ev.length →
        ds.getD i (0, 0) =
          ((ev.getD (i + 1) default).update_time,
            (ev.getD (i + 1) default).deaths - (ev.getD i default).deaths)) ∧
      (ds.map Prod.snd).sum =
        (ev.getLastD default).deaths - (ev.headD default).deaths :=
  ⟨deltas ev, dailyDeathsSeries_eq_deltas ev h, deltas_length ev,
    fun i hi => deltas_getD ev i hi, deltas_sum ev h⟩

/-- Claim C5, witness: the daily-delta properties at the concrete
3-point series with deaths 1, 3, 6 (so the deltas are 2 and 3, and
they telescope to 6 - 1 = 5). -/
theorem c5_daily_delta_spec_witness :
    ∃ ds, dailyDeathsSeries
        [(⟨0, 0, 1, 0⟩ : EvolutionPoint), ⟨1, 0, 3, 0⟩, ⟨2, 0, 6, 0⟩] =
        some ds ∧
      ds.length = 2 ∧
      (∀ i, i + 1 < 3 →
        ds.getD i (0, 0) =
          ((([(⟨0, 0, 1, 0⟩ : EvolutionPoint), ⟨1, 0, 3, 0⟩,
              ⟨2, 0, 6, 0⟩]).getD (i + 1) default).update_time,
            (([(⟨0, 0, 1, 0⟩ : EvolutionPoint), ⟨1, 0, 3, 0⟩,
               ⟨2, 0, 6, 0⟩]).getD (i + 1) default).deaths -
              (([(⟨0, 0, 1, 0⟩ : EvolutionPoint), ⟨1, 0, 3, 0⟩,
                 ⟨2, 0, 6, 0⟩]).getD i default).deaths)) ∧
      (ds.map Prod.snd).sum = 5 :=
  c5_daily_delta_spec
    [(⟨0, 0, 1, 0⟩ : EvolutionPoint), ⟨1, 0, 3, 0⟩, ⟨2, 0, 6, 0⟩]
    (by decide)

/-- Claim C6: in terms of the daily-death series `S` being averaged,
the 3-day rolling average has exactly `len(S) - 3 + 1` points when
`len(S) ≥ 3` and is empty (a silent non-error value) when
`len(S) < 3`. -/
theorem c6_avg3_length_spec (pop : ℚ) (ev : List EvolutionPoint)
    (S : List (Int × Nat)) (out : List (Int × ℚ))
    (hS : dailyDeathsSeries ev = some S) (hout : avg3Series pop ev = some out) :
    (3 ≤ S.length → out.length = S.length - 3 + 1) ∧
    (S.length < 3 → out = []) := by
  have h1 := dailyDeathsSeries_length ev S hS
  have h2 := avg3Series_length pop ev out hout
  constructor
  · intro h3
    omega
  · intro h3
    have hz : out.length = 0 := by omega
    exact List.length_eq_zero.mp hz

/-- Claim C6, witness: a 5-point series gives a 4-point daily series
and a 2-point 3-day average (4 - 3 + 1 = 2); applied to the concrete
series with deaths 0, 1, 2, 3, 4. -/
theorem c6_avg3_length_spec_witness :
    ([((3 : Int), (1 : ℚ)), ((4 : Int), (1 : ℚ))] : List (Int × ℚ)).length =
      ([((1 : Int), (1 : Nat)), (2, 1), (3, 1), (4, 1)] :
          List (Int × Nat)).length - 3 + 1 :=
  (c6_avg3_length_spec 1
      [⟨0, 0, 0, 0⟩, ⟨1, 0, 1, 0⟩, ⟨2, 0, 2, 0⟩, ⟨3, 0, 3, 0⟩, ⟨4, 0, 4, 0⟩]
      [((1 : Int), (1 : Nat)), (2, 1), (3, 1), (4, 1)]
      [((3 : Int), (1 : ℚ)), ((4 : Int), (1 : ℚ))]
      (by decide) (by norm_num [avg3Series, checkedSub, avg3Val])).1 (by decide)

/-- Claim C7: aggregation turns every raw record into exactly one
point of its region's series — the total point count equals the record
count, and region `n`'s series has one point per record named `n`. -/
theorem c7_aggregation_preserves_records (ds : List DataPoint) :
    totalPoints (get_per_country_data ds) = ds.length ∧
    ∀ n, (seriesOf (get_per_country_data ds) n).length =
      (ds.filter (fun d => d.name == n)).length := by
  constructor
  · have h := totalPoints_foldl ds []
    simpa [get_per_country_data, totalPoints] using h
  · intro n
    rw [seriesOf_get_per_country_data, List.length_map]

/-- Claim C8: every region produced by the aggregator carries a
non-empty series — a `RegionData` is only created together with its
first point, so indexing the last point is always defined. -/
theorem c8_region_series_nonempty (ds : List DataPoint) (r : RegionData)
    (h : r ∈ get_per_country_data ds) : r.evolution ≠ [] :=
  evolution_ne_nil_of_mem_foldl ds [] (by simp) r h

/-- Claim C8, witness: the single-record run produces the region with
its one-point, non-empty series. -/
theorem c8_region_series_nonempty_witness :
    ({ name := "A", region := "r",
       evolution := [{ update_time := 2, confirmed := 0, deaths := 5,
                       recovered := 0 }] } : RegionData).evolution ≠ [] :=
  c8_region_series_nonempty
    [{ name := "A", region := "r", last_update := 2, confirmed := 0,
       deaths := 5, recovered := 0 }]
    { name := "A", region := "r",
      evolution := [{ update_time := 2, confirmed := 0, deaths := 5,
                      recovered := 0 }] }
    (by decide)

/-- Claim C9: the daily-delta and 3-day-average subtractions are
unguarded `u32` subtraction: both series are total when deaths never
decrease along the series, and a series with a decreasing step makes
the subtraction underflow (`none`, the debug-build panic). -/
theorem c9_delta_underflow_unguarded :
    (∀ ev, deathsMono ev →
      (dailyDeathsSeries ev).isSome ∧ (avg3Series 1 ev).isSome) ∧
    dailyDeathsSeries
      [{ update_time := 0, confirmed := 0, deaths := 5, recovered := 0 },
       { update_time := 1, confirmed := 0, deaths := 3, recovered := 0 }] =
      none ∧
    avg3Series 1
      [{ update_time := 0, confirmed := 0, deaths := 0, recovered := 0 },
       { update_time := 1, confirmed := 0, deaths := 1, recovered := 0 },
       { update_time := 2, confirmed := 0, deaths := 5, recovered := 0 },
       { update_time := 3, confirmed := 0, deaths := 3, recovered := 0 }] =
      none := by
  refine ⟨fun ev h => ⟨?_, avg3Series_isSome_of_mono 1 ev h⟩, by decide, by decide⟩
  rw [dailyDeathsSeries_eq_deltas ev h]
  rfl

/-- Claim C9, witness: on a concrete non-decreasing series both
metric series are defined. -/
theorem c9_delta_underflow_unguarded_witness :
    (dailyDeathsSeries
      [{ update_time := 0, confirmed := 0, deaths := 1, recovered := 0 },
       { update_time := 1, confirmed := 0, deaths := 2, recovered := 0 }]).isSome ∧
    (avg3Series 1
      [{ update_time := 0, confirmed := 0, deaths := 1, recovered := 0 },
       { update_time := 1, confirmed := 0, deaths := 2, recovered := 0 }]).isSome :=
  c9_delta_underflow_unguarded.1
    [{ update_time := 0, confirmed := 0, deaths := 1, recovered := 0 },
     { update_time := 1, confirmed := 0, deaths := 2, recovered := 0 }]
    (by decide)

/-- Claim C10: a region's series lists its records' points in exactly
the parser-output order — the grouping fold only appends to the
matched region's vector and never reorders it. -/
theorem c10_series_preserves_parser_order (ds : List DataPoint) (n : String) :
    seriesOf (get_per_country_data ds) n =
      (ds.filter (fun d => d.name == n)).map toEvolutionPoint :=
  seriesOf_get_per_country_data ds n

end CovidGraph
